import Mathlib

set_option maxRecDepth 20000

/-!
# Verification of the droply content-encryption and key-rotation core

Shallow embedding of the repository's crypto module (`src/lib/crypto.ts`),
the settings-update / rotation logic of the room controller
(`src/pages/Room.tsx`, `updateRoomSettings`), and the multi-key resolver of
the share display component (`src/components/ShareDisplay.tsx`).

Modelling conventions:
* JavaScript strings are modelled as their UTF-8 byte sequences (`List Nat`,
  each element `< 256`); `TextEncoder`/`TextDecoder` are then the identity.
* Nullable strings are `Option Bytes`; JavaScript truthiness (`null` and the
  empty string are falsy) is `jsTruthy`.
* The Web Crypto primitives (AES-GCM, PBKDF2, SHA-256) are replaced by an
  executable symbolic cipher with the same interface properties: for a fixed
  key and IV, encryption is a length-preserving keystream mask followed by a
  16-byte authentication tag over the ciphertext; decryption recomputes and
  checks the tag and fails (`none`) on a mismatch.  Key derivation is a
  deterministic executable mix of password, salt and iteration count.
* Randomness (`crypto.getRandomValues` for salt and IV) is passed in as
  explicit parameters.
* The per-item database write is external; the engine functions return the
  update payload (`UpdateData`) that would be written, or `failed` for the
  per-item abort (`return null` in the source, which withholds the write and
  excludes the item from the success count).
* The floating-point length check `encryptedData.length >= originalData.length * 1.1`
  in `verifyEncryption` is modelled exactly as the rational comparison
  `11 * original ≤ 10 * encrypted`; concrete inputs in this file stay away
  from the one-ulp boundary where IEEE doubles could differ from rationals.
-/

namespace Droply

/-- Strings as UTF-8 byte sequences. -/
abbrev Bytes := List Nat

/-- JavaScript truthiness of a nullable string: `null` and `""` are falsy. -/
def jsTruthy : Option Bytes → Bool
  | none => false
  | some s => !s.isEmpty

/-- Underlying bytes of a nullable string (`[]` for `null`). -/
def og (s : Option Bytes) : Bytes := s.getD []

/-! ## Base64 (crypto.ts `bufferToBase64` / `base64ToBuffer` via `btoa` / `atob`) -/

/-- Byte of the base64 alphabet character for a 6-bit value. -/
def b64chr (n : Nat) : Nat :=
  if n < 26 then 65 + n
  else if n < 52 then 97 + (n - 26)
  else if n < 62 then 48 + (n - 52)
  else if n = 62 then 43
  else 47

/-- Partial inverse of `b64chr`; `none` for a byte outside the alphabet
(`'='` (61) is padding, not data, so it maps to `none` here). -/
def b64val (c : Nat) : Option Nat :=
  if 65 ≤ c ∧ c ≤ 90 then some (c - 65)
  else if 97 ≤ c ∧ c ≤ 122 then some (26 + (c - 97))
  else if 48 ≤ c ∧ c ≤ 57 then some (52 + (c - 48))
  else if c = 43 then some 62
  else if c = 47 then some 63
  else none

/-- `bufferToBase64` (crypto.ts:309): base64-encode a byte buffer,
with `'='` (61) padding. -/
def bufferToBase64 : Bytes → Bytes
  | a :: b :: c :: rest =>
      b64chr (a / 4) :: b64chr ((a % 4) * 16 + b / 16) ::
      b64chr ((b % 16) * 4 + c / 64) :: b64chr (c % 64) :: bufferToBase64 rest
  | [a, b] => [b64chr (a / 4), b64chr ((a % 4) * 16 + b / 16), b64chr ((b % 16) * 4), 61]
  | [a] => [b64chr (a / 4), b64chr ((a % 4) * 16), 61, 61]
  | [] => []

/-- `base64ToBuffer` (crypto.ts:318) via `atob`: decode, `none` on input that
is not well-formed padded base64 (`atob` throws there, and every caller of
`base64ToBuffer` in the source sits inside a `try`/`catch`). -/
def b64decode : Bytes → Option Bytes
  | [] => some []
  | c1 :: c2 :: c3 :: c4 :: rest =>
      match b64val c1, b64val c2 with
      | some v1, some v2 =>
          if c3 = 61 then
            if c4 = 61 ∧ rest = [] then some [v1 * 4 + v2 / 16] else none
          else
            match b64val c3 with
            | some v3 =>
                if c4 = 61 then
                  if rest = [] then some [v1 * 4 + v2 / 16, (v2 % 16) * 16 + v3 / 4] else none
                else
                  match b64val c4 with
                  | some v4 =>
                      match b64decode rest with
                      | some tail =>
                          some ((v1 * 4 + v2 / 16) :: ((v2 % 16) * 16 + v3 / 4) ::
                                ((v3 % 4) * 64 + v4) :: tail)
                      | none => none
                  | none => none
            | none => none
      | _, _ => none
  | _ => none

/-! ## `String.prototype.split(":")` and `Array.prototype.join(":")` -/

/-- `s.split(":")` on byte strings (`':'` is byte 58).  As in JavaScript,
splitting the empty string yields one empty part. -/
def splitColon : Bytes → List Bytes
  | [] => [[]]
  | c :: rest =>
      if c = 58 then [] :: splitColon rest
      else
        match splitColon rest with
        | p :: ps => (c :: p) :: ps
        | [] => [[c]]

/-- `parts.join(":")` on byte strings. -/
def joinColon : List Bytes → Bytes
  | [] => []
  | [p] => p
  | p :: ps => p ++ 58 :: joinColon ps

/-! ## Symbolic executable AES-GCM -/

/-- Deterministic mix of a byte list into a 16-bit accumulator (symbolic
stand-in for the cryptographic compression inside AES/PBKDF2). -/
def mixList (l : Bytes) : Nat := l.foldl (fun a b => (a * 257 + b + 1) % 65536) 7

/-- Keystream byte `i` for a key/IV pair. -/
def ksByte (key iv : Bytes) (i : Nat) : Nat :=
  (mixList key * 31 + mixList iv * 131 + i * 17 + 23) % 256

/-- XOR a byte list against the keystream starting at position `i`.
Self-inverse on byte lists. -/
def xorStream (key iv : Bytes) : Nat → Bytes → Bytes
  | _, [] => []
  | i, b :: rest => ((b % 256) ^^^ ksByte key iv i) :: xorStream key iv (i + 1) rest

/-- 16-byte authentication tag over the ciphertext (symbolic GHASH). -/
def gcmTag (key iv ct : Bytes) : Bytes :=
  (List.range 16).map fun i =>
    (mixList key * 7 + mixList iv * 29 + mixList ct * 59 + i * 101 + 5) % 256

/-- `crypto.subtle.encrypt` with AES-GCM: ciphertext (same length as the
plaintext) followed by the 16-byte tag. -/
def gcmSeal (key iv pt : Bytes) : Bytes :=
  let ct := xorStream key iv 0 pt
  ct ++ gcmTag key iv ct

/-- `crypto.subtle.decrypt` with AES-GCM: strip and check the tag; `none`
models the thrown `OperationError` on an authentication failure. -/
def gcmOpen (key iv data : Bytes) : Option Bytes :=
  if data.length < 16 then none
  else
    let ct := data.take (data.length - 16)
    let tag := data.drop (data.length - 16)
    if tag = gcmTag key iv ct then some (xorStream key iv 0 ct) else none

/-! ## Key derivation (crypto.ts) -/

/-- `ITERATIONS` (crypto.ts:12). -/
def ITERATIONS : Nat := 100000

/-- `ROOM_ID_ITERATIONS` (crypto.ts:13). -/
def ROOM_ID_ITERATIONS : Nat := 10000

/-- Symbolic PBKDF2-SHA256 with 256-bit output: a deterministic executable
function of password, salt and iteration count. -/
def pbkdf2 (password salt : Bytes) (iterations : Nat) : Bytes :=
  (List.range 32).map fun i =>
    (mixList password * 37 + mixList salt * 53 + iterations * 19 + i * 13 + 11) % 256

/-- UTF-8 bytes of the fixed salt prefix `"droply-room-salt-"`
(crypto.ts:70). -/
def roomSaltPrefix : Bytes :=
  [100, 114, 111, 112, 108, 121, 45, 114, 111, 111, 109, 45, 115, 97, 108, 116, 45]

/-- `deriveKeyFromRoomId` (crypto.ts:64): deterministic low-iteration PBKDF2
of the room id with a room-id-based salt, exported as base64. -/
def deriveKeyFromRoomId (roomId : Bytes) : Bytes :=
  bufferToBase64 (pbkdf2 roomId (roomSaltPrefix ++ roomId) ROOM_ID_ITERATIONS)

/-- `importKey` (crypto.ts:97): base64-decode a raw 256-bit AES key; the
Web Crypto import throws (here `none`) on malformed base64 or a wrong
key length. -/
def importKey (keyString : Bytes) : Option Bytes :=
  match b64decode keyString with
  | some k => if k.length = 32 then some k else none
  | none => none

/-! ## encrypt / decrypt / isEncrypted / verifyEncryption (crypto.ts) -/

/-- `encrypt` (crypto.ts:111).  `saltR` and `ivR` are the random draws of
`crypto.getRandomValues` (16 and 12 bytes in the source).  `Except.error`
models the thrown hard error; it carries no envelope. -/
def encrypt (data : Bytes) (keySource : Option Bytes) (isPasswordKey : Bool)
    (roomId : Option Bytes) (saltR ivR : Bytes) : Except Unit Bytes :=
  let ks := if !jsTruthy keySource && jsTruthy roomId then
              some (deriveKeyFromRoomId (og roomId))
            else keySource
  if !jsTruthy ks then .error ()
  else if isPasswordKey then
    let key := pbkdf2 (og ks) saltR ITERATIONS
    .ok (joinColon [bufferToBase64 saltR, bufferToBase64 ivR,
                    bufferToBase64 (gcmSeal key ivR data)])
  else
    match importKey (og ks) with
    | none => .error ()
    | some key => .ok (joinColon [bufferToBase64 ivR, bufferToBase64 (gcmSeal key ivR data)])

/-- `decrypt` (crypto.ts:166).  Total: every failure path (falsy key source,
wrong segment count for the mode, base64 decode failure, key import failure,
authentication failure) returns the input unchanged, as the source does via
its early returns and its `catch`. -/
def decrypt (encryptedData : Bytes) (keySource : Option Bytes) (isPasswordKey : Bool) : Bytes :=
  if !jsTruthy keySource then encryptedData
  else
    match isPasswordKey, splitColon encryptedData with
    | true, [p0, p1, p2] =>
        match b64decode p0, b64decode p1, b64decode p2 with
        | some saltB, some ivB, some ct =>
            match gcmOpen (pbkdf2 (og keySource) saltB ITERATIONS) ivB ct with
            | some pt => pt
            | none => encryptedData
        | _, _, _ => encryptedData
    | false, [p0, p1] =>
        match importKey (og keySource), b64decode p0, b64decode p1 with
        | some key, some ivB, some ct =>
            match gcmOpen key ivB ct with
            | some pt => pt
            | none => encryptedData
        | _, _, _ => encryptedData
    | _, _ => encryptedData

/-- Membership in the regex class `[A-Za-z0-9+/=]`. -/
def isB64Byte (c : Nat) : Bool :=
  decide ((65 ≤ c ∧ c ≤ 90) ∨ (97 ≤ c ∧ c ≤ 122) ∨ (48 ≤ c ∧ c ≤ 57) ∨
          c = 43 ∨ c = 47 ∨ c = 61)

/-- `/^[A-Za-z0-9+/=]+$/.test(p)`: nonempty and all bytes in the class. -/
def matchesB64 (p : Bytes) : Bool := !p.isEmpty && p.all isB64Byte

/-- `isEncrypted` (crypto.ts:218), the ciphertext classifier. -/
def isEncrypted (data : Bytes) : Bool :=
  if data.isEmpty then false
  else if !data.contains 58 then false
  else
    let parts := splitColon data
    if parts.length ≠ 2 ∧ parts.length ≠ 3 then false
    else if parts.any (fun p => p.length < 10 || !p.all isB64Byte) then false
    else if (parts.map List.length).sum < 30 then false
    else true

/-- `verifyEncryption` (crypto.ts:253): purely structural — difference from
the original, classifier match, and length minimums.  It performs no
decryption. -/
def verifyEncryption (encryptedData originalData : Bytes) : Bool :=
  if encryptedData = originalData then false
  else if !isEncrypted encryptedData then false
  else
    let parts := splitColon encryptedData
    let minEncryptedLength := if parts.length = 3 then 40 else 25
    if 11 * originalData.length ≤ 10 * encryptedData.length ∧
       minEncryptedLength ≤ encryptedData.length then true
    else false

/-! ## Rotation engine (Room.tsx `updateRoomSettings`, password branches) -/

/-- UTF-8 bytes of `"file"`. -/
def fileT : Bytes := [102, 105, 108, 101]

/-- A stored item, restricted to the fields the rotation engine touches. -/
structure Share where
  stype : Bytes
  content : Option Bytes
  file_name : Option Bytes
deriving DecidableEq

/-- Fields an item update would write (`updateData` in the source); `none`
means the field is left untouched. -/
structure UpdateData where
  content : Option Bytes
  file_name : Option Bytes
deriving DecidableEq

/-- Per-item outcome of a rotation pass: `failed` is the source's
`return null` (item excluded from the success count, nothing written). -/
inductive RotResult where
  | failed : RotResult
  | success : UpdateData → RotResult
deriving DecidableEq

/-- Extract the update payload of a successful per-item outcome. -/
def rotUpdate : RotResult → Option UpdateData
  | .failed => none
  | .success ud => some ud

/-- Password-removal branch, per item (Room.tsx:1341-1407): decrypt each
encrypted field with the current password and store the decrypted value.
A content field that fails to decrypt aborts the item; a file-name field
that fails to decrypt is merely skipped. -/
def processShareRemoval (share : Share) (currentPassword : Bytes) : RotResult :=
  let contentStep : Option (Option Bytes) :=
    if jsTruthy share.content && isEncrypted (og share.content) then
      let d := decrypt (og share.content) (some currentPassword) true
      if !isEncrypted d then some (some d) else none
    else some none
  match contentStep with
  | none => .failed
  | some updC =>
      let updF : Option Bytes :=
        if share.stype = fileT && jsTruthy share.file_name &&
           isEncrypted (og share.file_name) then
          let d := decrypt (og share.file_name) (some currentPassword) true
          if !isEncrypted d then some d else none
        else none
      .success ⟨updC, updF⟩

/-- Step 1 of the password-change branch for the content field
(Room.tsx:1491-1506): outer `none` aborts the item (`return null`); inner
value is `decryptedContent`.  Note: the source applies no success check to
the result of `decrypt` here. -/
def changeDecryptContent (share : Share) (oldPassword : Option Bytes) (wasPP : Bool) :
    Option (Option Bytes) :=
  if jsTruthy share.content then
    if wasPP && isEncrypted (og share.content) then
      if jsTruthy oldPassword then
        some (some (decrypt (og share.content) oldPassword true))
      else none
    else some (some (og share.content))
  else some none

/-- Step 1 of the password-change branch for the file-name field
(Room.tsx:1509-1522): never aborts the item; on a missing old password it
falls back to the original value, and applies no success check. -/
def changeDecryptFileName (share : Share) (oldPassword : Option Bytes) (wasPP : Bool) :
    Option Bytes :=
  if share.stype = fileT && jsTruthy share.file_name then
    if wasPP && isEncrypted (og share.file_name) then
      if jsTruthy oldPassword then
        some (decrypt (og share.file_name) oldPassword true)
      else some (og share.file_name)
    else some (og share.file_name)
  else none

/-- Password set/change branch, per item (Room.tsx:1486-1567): decrypt (step
1), re-`seal` under the new password, check with `verifyEncryption`, and
build the update.  A content envelope failing the check aborts the item; a
file-name envelope failing it only skips that field.  `saltC ivC saltF ivF`
are the random draws of the two `encrypt` calls. -/
def processShareChange (share : Share) (oldPassword : Option Bytes) (wasPP : Bool)
    (trimmedPassword : Bytes) (saltC ivC saltF ivF : Bytes) : RotResult :=
  match changeDecryptContent share oldPassword wasPP with
  | none => .failed
  | some dc =>
      let df := changeDecryptFileName share oldPassword wasPP
      if !jsTruthy dc && !jsTruthy df then .failed
      else
        let stepC : Option (Option Bytes) :=
          if jsTruthy dc then
            match encrypt (og dc) (some trimmedPassword) true none saltC ivC with
            | .error _ => none
            | .ok e => if !verifyEncryption e (og dc) then none else some (some e)
          else some none
        match stepC with
        | none => .failed
        | some updC =>
            let stepF : Option (Option Bytes) :=
              if jsTruthy df then
                match encrypt (og df) (some trimmedPassword) true none saltF ivF with
                | .error _ => none
                | .ok e => if !verifyEncryption e (og df) then some none else some (some e)
              else some none
            match stepF with
            | none => .failed
            | some updF => .success ⟨updC, updF⟩

/-! ## Multi-key resolver (ShareDisplay.tsx) -/

/-- A candidate key together with its `isPasswordKey` flag. -/
abbrev Candidate := Bytes × Bool

/-- Props of `ShareDisplay` that drive candidate-key construction. -/
structure ResolverEnv where
  encryptionKey : Option Bytes
  isPasswordKey : Bool
  oldEncryptionKeys : List Bytes
  isPasswordProtected : Bool
  roomId : Option Bytes

/-- `oldEncryptionKeys.forEach(...)` (ShareDisplay.tsx:213-217, 272-276):
append each truthy old key not already present, flagged as a password key. -/
def pushOldKeys (init : List Candidate) (olds : List Bytes) : List Candidate :=
  olds.foldl
    (fun acc oldKey =>
      if !oldKey.isEmpty && !acc.any (fun k => k.1 = oldKey) then
        acc ++ [(oldKey, true)]
      else acc)
    init

/-- Current key (if truthy) followed by the deduplicated old keys. -/
def baseKeys (env : ResolverEnv) : List Candidate :=
  pushOldKeys
    (if jsTruthy env.encryptionKey then [(og env.encryptionKey, env.isPasswordKey)] else [])
    env.oldEncryptionKeys

/-- Candidate keys for an encrypted file name (ShareDisplay.tsx:205-228):
the room-id key is tried only when the list is otherwise empty. -/
def buildKeysFileName (env : ResolverEnv) : List Candidate :=
  let ks := baseKeys env
  if ks.isEmpty && !env.isPasswordProtected && jsTruthy env.roomId then
    ks ++ [(deriveKeyFromRoomId (og env.roomId), false)]
  else ks

/-- Candidate keys for encrypted content (ShareDisplay.tsx:263-289): the
room-id key is always appended for a password-less room (unless already
present). -/
def buildKeysContent (env : ResolverEnv) : List Candidate :=
  let ks := baseKeys env
  if !env.isPasswordProtected && jsTruthy env.roomId then
    let rk := deriveKeyFromRoomId (og env.roomId)
    if !ks.any (fun k => k.1 = rk) then ks ++ [(rk, false)] else ks
  else ks

/-- The try-each-key loop (ShareDisplay.tsx:347-359 for content, 233-245 for
file names): the first attempt whose result does not re-classify as
ciphertext is accepted; `none` after exhausting all candidates. -/
def tryKeys (data : Bytes) : List Candidate → Option Bytes
  | [] => none
  | (k, pk) :: rest =>
      let attempt := decrypt data (some k) pk
      if !isEncrypted attempt then some attempt else tryKeys data rest

/-- File-name branch of `decryptData` (ShareDisplay.tsx:202-257): what ends
up displayed for a file item's name. -/
def resolveFileName (share : Share) (env : ResolverEnv) : Bytes :=
  if share.stype = fileT && jsTruthy share.file_name then
    if isEncrypted (og share.file_name) then
      let ks := buildKeysFileName env
      if ks.isEmpty then og share.file_name
      else
        match tryKeys (og share.file_name) ks with
        | some d => d
        | none => og share.file_name
    else og share.file_name
  else []

/-- Outcome of the content branch: either some bytes are displayed, or one
of the fixed "Unable to decrypt" error messages is shown. -/
inductive ContentView where
  | shown : Bytes → ContentView
  | decryptError : ContentView
deriving DecidableEq

/-- Content branch of `decryptData` (ShareDisplay.tsx:259-415), for a share
whose `content` is truthy: build candidates, run the loop, and on total
failure either fall back to showing the raw content (when it might not
really be ciphertext) or show an error message. -/
def resolveContent (c : Bytes) (env : ResolverEnv) : ContentView :=
  if isEncrypted c then
    let ks := buildKeysContent env
    if ks.isEmpty then
      if !env.isPasswordProtected && jsTruthy env.roomId then
        let d := decrypt c (some (deriveKeyFromRoomId (og env.roomId))) false
        if !isEncrypted d then .shown d
        else
          let parts := splitColon c
          let allPartsBase64 := (parts.length = 2 || parts.length = 3) &&
            parts.all (fun p => decide (10 ≤ p.length) && matchesB64 p)
          if !allPartsBase64 || c.length < 30 then .shown c else .decryptError
      else
        let parts := splitColon c
        let allPartsBase64 := (parts.length = 2 || parts.length = 3) &&
          parts.all (fun p => decide (10 ≤ p.length) && matchesB64 p)
        if !allPartsBase64 || c.length < 30 then .shown c else .decryptError
    else
      match tryKeys c ks with
      | some d => .shown d
      | none =>
          let mightBeUnencrypted :=
            match splitColon c with
            | [p0, p1] =>
                (p0.length < 20 || p1.length < 20) && !matchesB64 p0 && !matchesB64 p1
            | _ => false
          if mightBeUnencrypted then .shown c else .decryptError
  else .shown c

/-! ## Helper lemmas: base64 -/

theorem b64val_b64chr : ∀ n < 64, b64val (b64chr n) = some n := by decide

theorem isB64Byte_b64chr (n : Nat) : isB64Byte (b64chr n) = true := by
  unfold b64chr isB64Byte
  split_ifs <;> simp <;> omega

theorem b64chr_ne_colon (n : Nat) : b64chr n ≠ 58 := by
  unfold b64chr
  split_ifs <;> omega

theorem b64chr_ne_pad (n : Nat) : b64chr n ≠ 61 := by
  unfold b64chr
  split_ifs <;> omega

theorem mem_bufferToBase64_isB64 (bs : Bytes) : ∀ x ∈ bufferToBase64 bs, isB64Byte x = true := by
  induction bs using bufferToBase64.induct with
  | case1 a b c rest ih =>
      intro x hx
      simp only [bufferToBase64, List.mem_cons] at hx
      rcases hx with rfl | rfl | rfl | rfl | hx
      · exact isB64Byte_b64chr _
      · exact isB64Byte_b64chr _
      · exact isB64Byte_b64chr _
      · exact isB64Byte_b64chr _
      · exact ih x hx
  | case2 a b =>
      intro x hx
      simp only [bufferToBase64, List.mem_cons] at hx
      rcases hx with rfl | rfl | rfl | rfl | hx
      · exact isB64Byte_b64chr _
      · exact isB64Byte_b64chr _
      · exact isB64Byte_b64chr _
      · decide
      · simp at hx
  | case3 a =>
      intro x hx
      simp only [bufferToBase64, List.mem_cons] at hx
      rcases hx with rfl | rfl | rfl | rfl | hx
      · exact isB64Byte_b64chr _
      · exact isB64Byte_b64chr _
      · decide
      · decide
      · simp at hx
  | case4 =>
      intro x hx
      simp [bufferToBase64] at hx

theorem colon_not_mem_bufferToBase64 (bs : Bytes) : 58 ∉ bufferToBase64 bs := by
  intro h
  have := mem_bufferToBase64_isB64 bs 58 h
  simp [isB64Byte] at this

theorem length_bufferToBase64 (bs : Bytes) :
    (bufferToBase64 bs).length = (bs.length + 2) / 3 * 4 := by
  induction bs using bufferToBase64.induct <;> simp [bufferToBase64, *] <;> omega

theorem b64decode_bufferToBase64 (bs : Bytes) (h : ∀ b ∈ bs, b < 256) :
    b64decode (bufferToBase64 bs) = some bs := by
  induction bs using bufferToBase64.induct with
  | case1 a b c rest ih =>
      have ha : a < 256 := h a (by simp)
      have hb : b < 256 := h b (by simp)
      have hc : c < 256 := h c (by simp)
      have ih2 := ih (fun x hx => h x (by simp [hx]))
      simp only [bufferToBase64, b64decode,
        b64val_b64chr (a / 4) (by omega),
        b64val_b64chr ((a % 4) * 16 + b / 16) (by omega),
        b64val_b64chr ((b % 16) * 4 + c / 64) (by omega),
        b64val_b64chr (c % 64) (by omega),
        b64chr_ne_pad, if_false, ih2, Option.some.injEq, List.cons.injEq]
      exact ⟨by omega, by omega, by omega, trivial⟩
  | case2 a b =>
      have ha : a < 256 := h a (by simp)
      have hb : b < 256 := h b (by simp)
      simp only [bufferToBase64, b64decode,
        b64val_b64chr (a / 4) (by omega),
        b64val_b64chr ((a % 4) * 16 + b / 16) (by omega),
        b64val_b64chr ((b % 16) * 4) (by omega),
        b64chr_ne_pad, if_false, Option.some.injEq, List.cons.injEq]
      simp only [if_true, Option.some.injEq, List.cons.injEq, and_true]
      omega
  | case3 a =>
      have ha : a < 256 := h a (by simp)
      simp only [bufferToBase64, b64decode,
        b64val_b64chr (a / 4) (by omega),
        b64val_b64chr ((a % 4) * 16) (by omega)]
      simp only [and_self, if_true, Option.some.injEq, List.cons.injEq, and_true]
      omega
  | case4 => rfl

/-! ## Helper lemmas: split / join -/

theorem splitColon_ne_nil (s : Bytes) : splitColon s ≠ [] := by
  induction s with
  | nil => simp [splitColon]
  | cons c rest ih =>
      unfold splitColon
      split_ifs with hc
      · simp
      · match hrec : splitColon rest with
        | p :: ps => simp
        | [] => exact absurd hrec ih

theorem splitColon_no_colon (p : Bytes) (hp : 58 ∉ p) : splitColon p = [p] := by
  induction p with
  | nil => rfl
  | cons c rest ih =>
      have hc : c ≠ 58 := fun h => hp (by simp [h])
      have hrest : 58 ∉ rest := fun h => hp (by simp [h])
      unfold splitColon
      rw [if_neg hc, ih hrest]

theorem splitColon_append (p t : Bytes) (hp : 58 ∉ p) :
    splitColon (p ++ 58 :: t) = p :: splitColon t := by
  induction p with
  | nil => simp [splitColon]
  | cons c rest ih =>
      have hc : c ≠ 58 := fun h => hp (by simp [h])
      have hrest : 58 ∉ rest := fun h => hp (by simp [h])
      simp only [List.cons_append, splitColon, if_neg hc]
      rw [List.append_eq, ih hrest]

theorem splitColon_join2 (p0 p1 : Bytes) (h0 : 58 ∉ p0) (h1 : 58 ∉ p1) :
    splitColon (joinColon [p0, p1]) = [p0, p1] := by
  show splitColon (p0 ++ 58 :: joinColon [p1]) = [p0, p1]
  rw [splitColon_append p0 _ h0]
  show p0 :: splitColon p1 = [p0, p1]
  rw [splitColon_no_colon p1 h1]

theorem splitColon_join3 (p0 p1 p2 : Bytes) (h0 : 58 ∉ p0) (h1 : 58 ∉ p1) (h2 : 58 ∉ p2) :
    splitColon (joinColon [p0, p1, p2]) = [p0, p1, p2] := by
  show splitColon (p0 ++ 58 :: joinColon [p1, p2]) = [p0, p1, p2]
  rw [splitColon_append p0 _ h0]
  show p0 :: splitColon (p1 ++ 58 :: joinColon [p2]) = [p0, p1, p2]
  rw [splitColon_append p1 _ h1]
  show p0 :: p1 :: splitColon p2 = [p0, p1, p2]
  rw [splitColon_no_colon p2 h2]

/-! ## Helper lemmas: symbolic cipher -/

theorem xorStream_length (key iv : Bytes) (i : Nat) (bs : Bytes) :
    (xorStream key iv i bs).length = bs.length := by
  induction bs generalizing i with
  | nil => rfl
  | cons b rest ih => simp [xorStream, ih]

theorem ksByte_lt (key iv : Bytes) (i : Nat) : ksByte key iv i < 256 :=
  Nat.mod_lt _ (by omega)

theorem mem_xorStream_lt (key iv : Bytes) (i : Nat) (bs : Bytes) :
    ∀ x ∈ xorStream key iv i bs, x < 256 := by
  induction bs generalizing i with
  | nil => intro x hx; simp [xorStream] at hx
  | cons b rest ih =>
      intro x hx
      simp only [xorStream, List.mem_cons] at hx
      rcases hx with rfl | hx
      · have h1 : b % 256 < 2 ^ 8 := by omega
        have h2 : ksByte key iv i < 2 ^ 8 := by have := ksByte_lt key iv i; omega
        have := Nat.xor_lt_two_pow h1 h2
        omega
      · exact ih (i + 1) x hx

theorem xorStream_xorStream (key iv : Bytes) (i : Nat) (bs : Bytes)
    (h : ∀ x ∈ bs, x < 256) :
    xorStream key iv i (xorStream key iv i bs) = bs := by
  induction bs generalizing i with
  | nil => rfl
  | cons b rest ih =>
      have hb : b < 256 := h b (by simp)
      have hx : (b % 256) ^^^ ksByte key iv i < 256 := by
        have h1 : b % 256 < 2 ^ 8 := by omega
        have h2 : ksByte key iv i < 2 ^ 8 := by have := ksByte_lt key iv i; omega
        have := Nat.xor_lt_two_pow h1 h2
        omega
      simp only [xorStream]
      rw [Nat.mod_eq_of_lt hx, Nat.mod_eq_of_lt hb] at *
      rw [Nat.xor_cancel_right]
      rw [ih (i + 1) (fun x hxm => h x (by simp [hxm]))]

theorem mem_gcmTag_lt (key iv ct : Bytes) : ∀ x ∈ gcmTag key iv ct, x < 256 := by
  intro x hx
  simp only [gcmTag, List.mem_map] at hx
  obtain ⟨i, _, rfl⟩ := hx
  exact Nat.mod_lt _ (by omega)

theorem gcmTag_length (key iv ct : Bytes) : (gcmTag key iv ct).length = 16 := by
  simp [gcmTag]

theorem mem_gcmSeal_lt (key iv pt : Bytes) : ∀ x ∈ gcmSeal key iv pt, x < 256 := by
  intro x hx
  simp only [gcmSeal, List.mem_append] at hx
  rcases hx with hx | hx
  · exact mem_xorStream_lt key iv 0 pt x hx
  · exact mem_gcmTag_lt key iv _ x hx

theorem gcmSeal_length (key iv pt : Bytes) : (gcmSeal key iv pt).length = pt.length + 16 := by
  simp [gcmSeal, xorStream_length, gcmTag_length]

theorem gcmOpen_gcmSeal (key iv pt : Bytes) (h : ∀ x ∈ pt, x < 256) :
    gcmOpen key iv (gcmSeal key iv pt) = some pt := by
  unfold gcmOpen
  rw [gcmSeal_length]
  rw [if_neg (by omega)]
  have hlen : pt.length + 16 - 16 = (xorStream key iv 0 pt).length := by
    rw [xorStream_length]; omega
  simp only [gcmSeal]
  rw [hlen, List.take_left, List.drop_left, if_pos rfl, xorStream_xorStream key iv 0 pt h]

/-! ## Helper lemmas: encrypt / decrypt / classifier -/

theorem encrypt_password_eq (data pw : Bytes) (rid : Option Bytes) (salt iv : Bytes)
    (hpw : pw ≠ []) :
    encrypt data (some pw) true rid salt iv =
      .ok (joinColon [bufferToBase64 salt, bufferToBase64 iv,
                      bufferToBase64 (gcmSeal (pbkdf2 pw salt ITERATIONS) iv data)]) := by
  have htr : jsTruthy (some pw) = true := by simp [jsTruthy, hpw]
  simp [encrypt, htr, og]

theorem bufferToBase64_ne_nil_of_32 (km : Bytes) (hkm : km.length = 32) :
    bufferToBase64 km ≠ [] := by
  have hlen : (bufferToBase64 km).length = 44 := by rw [length_bufferToBase64, hkm]
  intro h
  rw [h] at hlen
  simp at hlen

theorem importKey_bufferToBase64 (km : Bytes) (hkm : km.length = 32)
    (hkmb : ∀ x ∈ km, x < 256) : importKey (bufferToBase64 km) = some km := by
  simp [importKey, b64decode_bufferToBase64 km hkmb, hkm]

theorem encrypt_raw_eq (data km : Bytes) (rid : Option Bytes) (salt iv : Bytes)
    (hkm : km.length = 32) (hkmb : ∀ x ∈ km, x < 256) :
    encrypt data (some (bufferToBase64 km)) false rid salt iv =
      .ok (joinColon [bufferToBase64 iv, bufferToBase64 (gcmSeal km iv data)]) := by
  have htr : jsTruthy (some (bufferToBase64 km)) = true := by
    simp [jsTruthy, bufferToBase64_ne_nil_of_32 km hkm]
  simp [encrypt, htr, og, importKey_bufferToBase64 km hkm hkmb]

theorem decrypt_sealed3 (data pw salt iv : Bytes) (hpw : pw ≠ [])
    (hdata : ∀ x ∈ data, x < 256) (hsalt : ∀ x ∈ salt, x < 256) (hiv : ∀ x ∈ iv, x < 256) :
    decrypt (joinColon [bufferToBase64 salt, bufferToBase64 iv,
                        bufferToBase64 (gcmSeal (pbkdf2 pw salt ITERATIONS) iv data)])
      (some pw) true = data := by
  have htr : jsTruthy (some pw) = true := by simp [jsTruthy, hpw]
  have hsplit := splitColon_join3 _ _ _
    (colon_not_mem_bufferToBase64 salt) (colon_not_mem_bufferToBase64 iv)
    (colon_not_mem_bufferToBase64 (gcmSeal (pbkdf2 pw salt ITERATIONS) iv data))
  simp [decrypt, htr, hsplit, og,
        b64decode_bufferToBase64 salt hsalt,
        b64decode_bufferToBase64 iv hiv,
        b64decode_bufferToBase64 _ (mem_gcmSeal_lt _ _ _),
        gcmOpen_gcmSeal _ _ _ hdata]

theorem decrypt_sealed2 (data km iv : Bytes)
    (hkm : km.length = 32) (hkmb : ∀ x ∈ km, x < 256)
    (hdata : ∀ x ∈ data, x < 256) (hiv : ∀ x ∈ iv, x < 256) :
    decrypt (joinColon [bufferToBase64 iv, bufferToBase64 (gcmSeal km iv data)])
      (some (bufferToBase64 km)) false = data := by
  have htr : jsTruthy (some (bufferToBase64 km)) = true := by
    simp [jsTruthy, bufferToBase64_ne_nil_of_32 km hkm]
  have hsplit := splitColon_join2 _ _
    (colon_not_mem_bufferToBase64 iv)
    (colon_not_mem_bufferToBase64 (gcmSeal km iv data))
  simp [decrypt, htr, hsplit, og, importKey_bufferToBase64 km hkm hkmb,
        b64decode_bufferToBase64 iv hiv,
        b64decode_bufferToBase64 _ (mem_gcmSeal_lt _ _ _),
        gcmOpen_gcmSeal _ _ _ hdata]

theorem joinColon3_length (a b c : Bytes) :
    (joinColon [a, b, c]).length = a.length + b.length + c.length + 2 := by
  simp [joinColon]
  omega

theorem joinColon2_length (a b : Bytes) :
    (joinColon [a, b]).length = a.length + b.length + 1 := by
  simp [joinColon]
  omega

theorem mem_joinColon3_colon (a b c : Bytes) : 58 ∈ joinColon [a, b, c] := by
  simp [joinColon]

theorem mem_joinColon2_colon (a b : Bytes) : 58 ∈ joinColon [a, b] := by
  simp [joinColon]

theorem all_isB64_bufferToBase64 (bs : Bytes) : (bufferToBase64 bs).all isB64Byte = true := by
  rw [List.all_eq_true]
  exact mem_bufferToBase64_isB64 bs

theorem isEncrypted_sealed3 (s1 p2 p3 : Bytes)
    (h1 : 16 ≤ s1.length) (h2 : 12 ≤ p2.length) (h3 : 16 ≤ p3.length) :
    isEncrypted (joinColon [bufferToBase64 s1, bufferToBase64 p2, bufferToBase64 p3]) = true := by
  have hsplit := splitColon_join3 _ _ _
    (colon_not_mem_bufferToBase64 s1) (colon_not_mem_bufferToBase64 p2)
    (colon_not_mem_bufferToBase64 p3)
  have hmem := mem_joinColon3_colon (bufferToBase64 s1) (bufferToBase64 p2) (bufferToBase64 p3)
  have hne : joinColon [bufferToBase64 s1, bufferToBase64 p2, bufferToBase64 p3] ≠ [] := by
    intro h
    rw [h] at hmem
    simp at hmem
  have l1 := length_bufferToBase64 s1
  have l2 := length_bufferToBase64 p2
  have l3 := length_bufferToBase64 p3
  simp only [isEncrypted, hsplit]
  simp [hne, hmem, all_isB64_bufferToBase64, List.isEmpty_iff]
  refine ⟨⟨by omega, by omega, by omega⟩, by omega⟩

theorem isEncrypted_sealed2 (p2 p3 : Bytes) (h2 : 12 ≤ p2.length) (h3 : 16 ≤ p3.length) :
    isEncrypted (joinColon [bufferToBase64 p2, bufferToBase64 p3]) = true := by
  have hsplit := splitColon_join2 _ _
    (colon_not_mem_bufferToBase64 p2) (colon_not_mem_bufferToBase64 p3)
  have hmem := mem_joinColon2_colon (bufferToBase64 p2) (bufferToBase64 p3)
  have hne : joinColon [bufferToBase64 p2, bufferToBase64 p3] ≠ [] := by
    intro h
    rw [h] at hmem
    simp at hmem
  have l2 := length_bufferToBase64 p2
  have l3 := length_bufferToBase64 p3
  simp only [isEncrypted, hsplit]
  simp [hne, hmem, all_isB64_bufferToBase64, List.isEmpty_iff]
  refine ⟨⟨by omega, by omega⟩, by omega⟩

theorem isEncrypted_parts_ok (data : Bytes) (h : isEncrypted data = true) :
    ∀ p ∈ splitColon data, 10 ≤ p.length ∧ p.all isB64Byte = true := by
  intro p hp
  unfold isEncrypted at h
  split_ifs at h with hh1 hh2
  simp only [] at h
  split_ifs at h with hh3 hh4 hh5
  rw [List.any_eq_true] at hh4
  push_neg at hh4
  have hthis := hh4 p hp
  simp at hthis
  exact ⟨by omega, by simpa using hthis.2⟩

theorem isEncrypted_false_of_bad_part (data p : Bytes) (hp : p ∈ splitColon data)
    (hbad : p.length < 10 ∨ ¬ p.all isB64Byte = true) : isEncrypted data = false := by
  by_cases h : isEncrypted data = true
  · have hok := isEncrypted_parts_ok data h p hp
    rcases hbad with hb | hb
    · omega
    · exact absurd hok.2 hb
  · cases hval : isEncrypted data with
    | false => rfl
    | true => exact absurd hval h

theorem verifyEncryption_true_isEncrypted (e o : Bytes)
    (h : verifyEncryption e o = true) : isEncrypted e = true := by
  unfold verifyEncryption at h
  split_ifs at h with h1 h2 h3
  simpa using h2

/-! ## Totality of decrypt, and claims C4, C5, C7, C8 -/

theorem decrypt_total (data : Bytes) (ks : Option Bytes) (pk : Bool) :
    decrypt data ks pk = data ∨
    (∃ p0 p1 p2 saltB ivB ct pt, pk = true ∧ splitColon data = [p0, p1, p2] ∧
       b64decode p0 = some saltB ∧ b64decode p1 = some ivB ∧ b64decode p2 = some ct ∧
       gcmOpen (pbkdf2 (og ks) saltB ITERATIONS) ivB ct = some pt) ∨
    (∃ p0 p1 km ivB ct pt, pk = false ∧ splitColon data = [p0, p1] ∧
       importKey (og ks) = some km ∧ b64decode p0 = some ivB ∧ b64decode p1 = some ct ∧
       gcmOpen km ivB ct = some pt) := by
  unfold decrypt
  split
  · exact Or.inl rfl
  split
  case h_1 p0 p1 p2 heq =>
      rcases h0 : b64decode p0 with _ | saltB
      · simp [h0]
      rcases h1 : b64decode p1 with _ | ivB
      · simp [h0, h1]
      rcases h2 : b64decode p2 with _ | ct
      · simp [h0, h1, h2]
      rcases h3 : gcmOpen (pbkdf2 (og ks) saltB ITERATIONS) ivB ct with _ | pt
      · simp [h0, h1, h2, h3]
      · exact Or.inr (Or.inl ⟨p0, p1, p2, saltB, ivB, ct, pt, rfl, heq, h0, h1, h2, h3⟩)
  case h_2 p0 p1 heq =>
      rcases hk : importKey (og ks) with _ | km
      · simp [hk]
      rcases h0 : b64decode p0 with _ | ivB
      · simp [hk, h0]
      rcases h1 : b64decode p1 with _ | ct
      · simp [hk, h0, h1]
      rcases h3 : gcmOpen km ivB ct with _ | pt
      · simp [hk, h0, h1, h3]
      · exact Or.inr (Or.inr ⟨p0, p1, km, ivB, ct, pt, rfl, heq, rfl, h0, h1, h3⟩)
  case h_3 => exact Or.inl rfl

/-- C7: `open` (decrypt) is total and never throws: whenever the input does
not split into the segment count its mode expects, or base64 decoding, key
import, or authenticated decryption fails, it returns the input string
unchanged. -/
theorem C7_open_total_never_throws (data : Bytes) (ks : Option Bytes) (pk : Bool)
    (h : ((pk = true ∧ (splitColon data).length ≠ 3) ∨
          (pk = false ∧ (splitColon data).length ≠ 2)) ∨
         (∃ p ∈ splitColon data, b64decode p = none) ∨
         (pk = false ∧ importKey (og ks) = none) ∨
         (∃ p0 p1 p2 saltB ivB ct, pk = true ∧ splitColon data = [p0, p1, p2] ∧
            b64decode p0 = some saltB ∧ b64decode p1 = some ivB ∧ b64decode p2 = some ct ∧
            gcmOpen (pbkdf2 (og ks) saltB ITERATIONS) ivB ct = none) ∨
         (∃ p0 p1 km ivB ct, pk = false ∧ splitColon data = [p0, p1] ∧
            importKey (og ks) = some km ∧ b64decode p0 = some ivB ∧ b64decode p1 = some ct ∧
            gcmOpen km ivB ct = none)) :
    decrypt data ks pk = data := by
  rcases decrypt_total data ks pk with hd | hs | hs
  · exact hd
  · obtain ⟨p0, p1, p2, saltB, ivB, ct, pt, hpk, hsp, h0, h1, h2, h3⟩ := hs
    subst hpk
    exfalso
    rcases h with (⟨_, hlen⟩ | ⟨hpk2, _⟩) |
      ⟨p, hp, hpd⟩ | ⟨hpk2, _⟩ |
      ⟨q0, q1, q2, sB, iB, cB, _, hsp2, g0, g1, g2, g3⟩ |
      ⟨q0, q1, km, iB, cB, hpk2, _⟩
    · exact hlen (by rw [hsp]; rfl)
    · exact Bool.true_eq_false.mp hpk2
    · rw [hsp] at hp
      simp only [List.mem_cons, List.not_mem_nil, or_false] at hp
      rcases hp with rfl | rfl | rfl <;> simp_all
    · exact Bool.true_eq_false.mp hpk2
    · rw [hsp] at hsp2
      injection hsp2 with e0 hsp2
      injection hsp2 with e1 hsp2
      injection hsp2 with e2 _
      subst e0; subst e1; subst e2
      simp_all
    · exact Bool.true_eq_false.mp hpk2
  · obtain ⟨p0, p1, km, ivB, ct, pt, hpk, hsp, hk, h0, h1, h3⟩ := hs
    subst hpk
    exfalso
    rcases h with (⟨hpk2, _⟩ | ⟨_, hlen⟩) |
      ⟨p, hp, hpd⟩ | ⟨_, hk2⟩ |
      ⟨q0, q1, q2, sB, iB, cB, hpk2, _⟩ |
      ⟨q0, q1, km2, iB, cB, _, hsp2, gk, g0, g1, g3⟩
    · exact Bool.false_eq_true.mp hpk2
    · exact hlen (by rw [hsp]; rfl)
    · rw [hsp] at hp
      simp only [List.mem_cons, List.not_mem_nil, or_false] at hp
      rcases hp with rfl | rfl <;> simp_all
    · simp_all
    · exact Bool.false_eq_true.mp hpk2
    · rw [hsp] at hsp2
      injection hsp2 with e0 hsp2
      injection hsp2 with e1 _
      subst e0; subst e1
      simp_all

/-- C7 witness: a two-byte string with no separator, in password mode,
comes back unchanged. -/
theorem C7_witness : decrypt [104, 105] (some [1]) true = [104, 105] :=
  C7_open_total_never_throws [104, 105] (some [1]) true
    (Or.inl (Or.inl ⟨rfl, by decide⟩))

/-- C4: Round-trip — in both modes (password-derived with salt, raw key
without), decrypting the envelope produced by sealing plaintext `data`
under the same key and mode returns exactly `data`. -/
theorem C4_round_trip (data pw km salt iv : Bytes) (rid1 rid2 : Option Bytes)
    (hpw : pw ≠ []) (hkm : km.length = 32)
    (hdata : ∀ x ∈ data, x < 256) (hsalt : ∀ x ∈ salt, x < 256)
    (hiv : ∀ x ∈ iv, x < 256) (hkmb : ∀ x ∈ km, x < 256) :
    (∃ env, encrypt data (some pw) true rid1 salt iv = .ok env ∧
            decrypt env (some pw) true = data) ∧
    (∃ env, encrypt data (some (bufferToBase64 km)) false rid2 salt iv = .ok env ∧
            decrypt env (some (bufferToBase64 km)) false = data) := by
  constructor
  · exact ⟨_, encrypt_password_eq data pw rid1 salt iv hpw,
           decrypt_sealed3 data pw salt iv hpw hdata hsalt hiv⟩
  · exact ⟨_, encrypt_raw_eq data km rid2 salt iv hkm hkmb,
           decrypt_sealed2 data km iv hkm hkmb hdata hiv⟩

/-- C4 witness at the plaintext "hi", password "p", and a concrete 32-byte raw key. -/
theorem C4_witness :
    (∃ env, encrypt [104, 105] (some [112]) true none (List.replicate 16 1) (List.replicate 12 2) = .ok env ∧
            decrypt env (some [112]) true = [104, 105]) ∧
    (∃ env, encrypt [104, 105] (some (bufferToBase64 (List.range 32))) false none
              (List.replicate 16 1) (List.replicate 12 2) = .ok env ∧
            decrypt env (some (bufferToBase64 (List.range 32))) false = [104, 105]) :=
  C4_round_trip [104, 105] [112] (List.range 32) (List.replicate 16 1) (List.replicate 12 2)
    none none (by decide) (by decide) (by decide) (by decide) (by decide) (by decide)

/-- C5: every output of `seal` (both 3-part password mode and 2-part raw-key
mode, with a 16-byte salt and a 12-byte IV) is classified as ciphertext by
`isEncrypted`, while any string one of whose colon-separated segments is
shorter than 10 characters or contains a byte outside the base64 alphabet is
classified as not-ciphertext. -/
theorem C5_classifier_soundness (data pw km salt iv u p : Bytes) (rid1 rid2 : Option Bytes)
    (hpw : pw ≠ []) (hkm : km.length = 32) (hkmb : ∀ x ∈ km, x < 256)
    (hsalt : salt.length = 16) (hiv : iv.length = 12)
    (hp : p ∈ splitColon u) (hbad : p.length < 10 ∨ ¬ p.all isB64Byte = true) :
    (∀ env, encrypt data (some pw) true rid1 salt iv = .ok env → isEncrypted env = true) ∧
    (∀ env, encrypt data (some (bufferToBase64 km)) false rid2 salt iv = .ok env →
       isEncrypted env = true) ∧
    isEncrypted u = false := by
  refine ⟨?_, ?_, isEncrypted_false_of_bad_part u p hp hbad⟩
  · intro env henv
    rw [encrypt_password_eq data pw rid1 salt iv hpw] at henv
    cases henv
    exact isEncrypted_sealed3 _ _ _ (by omega) (by omega) (by rw [gcmSeal_length]; omega)
  · intro env henv
    rw [encrypt_raw_eq data km rid2 salt iv hkm hkmb] at henv
    cases henv
    exact isEncrypted_sealed2 _ _ (by omega) (by rw [gcmSeal_length]; omega)

/-- C5 witness: concrete seals are classified as ciphertext, and the URL
"https://host:8080/path" (whose first segment "https" is shorter than 10) is
classified as not-ciphertext. -/
theorem C5_witness :
    (∀ env, encrypt [104, 105] (some [112]) true none (List.replicate 16 1) (List.replicate 12 2) = .ok env →
       isEncrypted env = true) ∧
    (∀ env, encrypt [104, 105] (some (bufferToBase64 (List.range 32))) false none
              (List.replicate 16 1) (List.replicate 12 2) = .ok env → isEncrypted env = true) ∧
    isEncrypted [104, 116, 116, 112, 115, 58, 47, 47, 104, 111, 115, 116, 58, 56,
                 48, 56, 48, 47, 112, 97, 116, 104] = false :=
  C5_classifier_soundness [104, 105] [112] (List.range 32) (List.replicate 16 1)
    (List.replicate 12 2)
    [104, 116, 116, 112, 115, 58, 47, 47, 104, 111, 115, 116, 58, 56, 48, 56, 48, 47, 112, 97, 116, 104]
    [104, 116, 116, 112, 115] none none
    (by decide) (by decide) (by decide) (by decide) (by decide) (by decide) (by decide)

/-- C8: `seal` (encrypt) called with no key material — a falsy key source
and no truthy room id to derive a key from — raises the hard error and
produces no envelope (the error value carries no payload, so the plaintext
is never returned as a substitute). -/
theorem C8_seal_requires_key (data : Bytes) (ksrc rid : Option Bytes) (pk : Bool)
    (salt iv : Bytes) (hks : jsTruthy ksrc = false) (hrid : jsTruthy rid = false) :
    encrypt data ksrc pk rid salt iv = .error () := by
  unfold encrypt
  rw [hks, hrid]
  simp [hks]

/-- C8 witness: a null key source with no room id. -/
theorem C8_witness : encrypt [104, 105] none true none (List.replicate 16 1) (List.replicate 12 2) = .error () :=
  C8_seal_requires_key [104, 105] none none true (List.replicate 16 1) (List.replicate 12 2) rfl rfl

/-! ## Resolver lemmas and claims C6, C9, C10 -/

theorem jsTruthy_iff (o : Option Bytes) : jsTruthy o = true ↔ ∃ v, o = some v ∧ v ≠ [] := by
  cases o with
  | none => simp [jsTruthy]
  | some v =>
      constructor
      · intro h
        refine ⟨v, rfl, fun hv => ?_⟩
        subst hv
        simp [jsTruthy] at h
      · rintro ⟨w, hw, hne⟩
        cases hw
        simp [jsTruthy, List.isEmpty_iff, hne]

theorem tryKeys_none_of_all (env : Bytes) (ks : List Candidate)
    (h : ∀ c ∈ ks, isEncrypted (decrypt env (some c.1) c.2) = true) :
    tryKeys env ks = none := by
  induction ks with
  | nil => rfl
  | cons c rest ih =>
      rcases c with ⟨k, pk⟩
      have hc := h (k, pk) (by simp)
      simp only [tryKeys, hc, Bool.not_true, Bool.false_eq_true, if_false]
      exact ih fun c hcm => h c (by simp [hcm])

/-- C6: with candidates `[current, old1, old2]` (current secret first, then the
superseded passwords in order), when `open` under `current` and `old1` yields a
result still classified as ciphertext and only `old2` decrypts the envelope to a
non-ciphertext plaintext, the resolver loop returns exactly that plaintext. -/
theorem C6_resolver_priority (cur old1 old2 data P : Bytes)
    (hcur : cur ≠ []) (ho1 : old1 ≠ []) (ho2 : old2 ≠ [])
    (hd1 : cur ≠ old1) (hd2 : cur ≠ old2) (hd3 : old1 ≠ old2)
    (h1 : isEncrypted (decrypt data (some cur) true) = true)
    (h2 : isEncrypted (decrypt data (some old1) true) = true)
    (h3 : decrypt data (some old2) true = P)
    (h4 : isEncrypted P = false) :
    tryKeys data (buildKeysContent ⟨some cur, true, [old1, old2], true, none⟩) = some P := by
  have hbuild : buildKeysContent ⟨some cur, true, [old1, old2], true, none⟩ =
      [(cur, true), (old1, true), (old2, true)] := by
    simp [buildKeysContent, baseKeys, pushOldKeys, jsTruthy, og, hcur, ho1, ho2, hd1, hd2, hd3]
  rw [hbuild]
  simp [tryKeys, h1, h2, h3, h4]

/-- C6 witness: an envelope sealed under the third candidate `old2 = "e"` is
resolved to its plaintext "hi" past the two failing candidates. -/
theorem C6_witness :
    tryKeys
      ((encrypt [104, 105] (some [101]) true none (List.replicate 16 1)
          (List.replicate 12 2)).toOption.getD [])
      (buildKeysContent ⟨some [99], true, [[100], [101]], true, none⟩) = some [104, 105] :=
  C6_resolver_priority [99] [100] [101] _ [104, 105]
    (by decide) (by decide) (by decide) (by decide) (by decide) (by decide)
    (by decide) (by decide) (by decide) (by decide)

/-- C9: for a stored envelope whose true plaintext itself satisfies the
ciphertext classifier, the resolver loop rejects every candidate — including
the key `(K, true)` that authentically decrypts the envelope — and reports
failure (`none`), because acceptance is judged solely by the result not
re-classifying as ciphertext. -/
theorem C9_resolver_rejects_ciphertext_looking_plaintext (P K salt iv env : Bytes)
    (ks : List Candidate)
    (hP : isEncrypted P = true) (hpw : K ≠ [])
    (hPb : ∀ x ∈ P, x < 256) (hs : ∀ x ∈ salt, x < 256) (hi : ∀ x ∈ iv, x < 256)
    (henv : encrypt P (some K) true none salt iv = .ok env)
    (hmem : (K, true) ∈ ks)
    (hothers : ∀ c ∈ ks, c ≠ (K, true) → isEncrypted (decrypt env (some c.1) c.2) = true) :
    tryKeys env ks = none := by
  have hdec : decrypt env (some K) true = P := by
    rw [encrypt_password_eq P K none salt iv hpw] at henv
    cases henv
    exact decrypt_sealed3 P K salt iv hpw hPb hs hi
  refine tryKeys_none_of_all env ks fun c hc => ?_
  by_cases hck : c = (K, true)
  · subst hck
    rw [hdec]
    exact hP
  · exact hothers c hc hck

/-- C9 witness: the plaintext "AAAAAAAAAAAA:BBBBBBBBBBBBBBBBBB" satisfies the
classifier; its envelope under key "k" is rejected by both candidates (a wrong
key "j" and the authentic "k"). -/
theorem C9_witness :
    tryKeys
      ((encrypt (List.replicate 12 65 ++ 58 :: List.replicate 18 66) (some [107]) true none
          (List.replicate 16 3) (List.replicate 12 4)).toOption.getD [])
      [([106], true), ([107], true)] = none :=
  C9_resolver_rejects_ciphertext_looking_plaintext
    (List.replicate 12 65 ++ 58 :: List.replicate 18 66) [107]
    (List.replicate 16 3) (List.replicate 12 4) _ [([106], true), ([107], true)]
    (by decide) (by decide) (by decide) (by decide) (by decide) rfl
    (by decide) (by decide)

/-- C10: in a password-less room that holds a session or URL-fragment key,
the room-id-derived key is offered for an encrypted file name only when the
candidate list is otherwise empty (so here never), but is always appended
for encrypted content; consequently a file name sealed under the room-id key
stays undecrypted while content sealed under it decrypts. -/
theorem C10_room_key_fallback_asymmetry (sessionKey rid fn ct Q : Bytes) (pk : Bool)
    (contentAny : Option Bytes)
    (hsk : sessionKey ≠ []) (hrid : rid ≠ [])
    (hne : sessionKey ≠ deriveKeyFromRoomId rid)
    (hfn : isEncrypted fn = true) (hct : isEncrypted ct = true)
    (hfailFn : isEncrypted (decrypt fn (some sessionKey) pk) = true)
    (hfailCt : isEncrypted (decrypt ct (some sessionKey) pk) = true)
    (hQ : decrypt ct (some (deriveKeyFromRoomId rid)) false = Q)
    (hQp : isEncrypted Q = false) :
    buildKeysFileName ⟨some sessionKey, pk, [], false, some rid⟩ = [(sessionKey, pk)] ∧
    buildKeysContent ⟨some sessionKey, pk, [], false, some rid⟩ =
      [(sessionKey, pk), (deriveKeyFromRoomId rid, false)] ∧
    resolveFileName ⟨fileT, contentAny, some fn⟩ ⟨some sessionKey, pk, [], false, some rid⟩ = fn ∧
    resolveContent ct ⟨some sessionKey, pk, [], false, some rid⟩ = .shown Q := by
  have hbase : baseKeys ⟨some sessionKey, pk, [], false, some rid⟩ = [(sessionKey, pk)] := by
    simp [baseKeys, pushOldKeys, jsTruthy, og, hsk]
  have hbf : buildKeysFileName ⟨some sessionKey, pk, [], false, some rid⟩ = [(sessionKey, pk)] := by
    simp [buildKeysFileName, hbase]
  have hbc : buildKeysContent ⟨some sessionKey, pk, [], false, some rid⟩ =
      [(sessionKey, pk), (deriveKeyFromRoomId rid, false)] := by
    simp [buildKeysContent, hbase, jsTruthy, og, hrid, hne]
  have hfn_ne : fn ≠ [] := by
    intro h
    rw [h] at hfn
    simp [isEncrypted] at hfn
  refine ⟨hbf, hbc, ?_, ?_⟩
  · simp [resolveFileName, jsTruthy, og, hfn_ne, hfn, hbf, tryKeys, hfailFn]
  · simp [resolveContent, hct, hbc, tryKeys, hfailCt, hQ, hQp]

/-- C10 witness: room "r1", session key "k"; a file name and a content value
both sealed under the room-id key; the name stays sealed, "ok" is shown. -/
theorem C10_witness :
    resolveFileName
      ⟨fileT, none,
       some ((encrypt [110] (some (deriveKeyFromRoomId [114, 49])) false none
               (List.replicate 16 5) (List.replicate 12 6)).toOption.getD [])⟩
      ⟨some [107], false, [], false, some [114, 49]⟩ =
      (encrypt [110] (some (deriveKeyFromRoomId [114, 49])) false none
        (List.replicate 16 5) (List.replicate 12 6)).toOption.getD [] ∧
    resolveContent
      ((encrypt [111, 107] (some (deriveKeyFromRoomId [114, 49])) false none
          (List.replicate 16 5) (List.replicate 12 6)).toOption.getD [])
      ⟨some [107], false, [], false, some [114, 49]⟩ = .shown [111, 107] := by
  have h := C10_room_key_fallback_asymmetry [107] [114, 49]
    ((encrypt [110] (some (deriveKeyFromRoomId [114, 49])) false none
        (List.replicate 16 5) (List.replicate 12 6)).toOption.getD [])
    ((encrypt [111, 107] (some (deriveKeyFromRoomId [114, 49])) false none
        (List.replicate 16 5) (List.replicate 12 6)).toOption.getD [])
    [111, 107] false none
    (by decide) (by decide) (by decide) (by decide) (by decide) (by decide)
    (by decide) (by decide) (by decide)
  exact ⟨h.2.2.1, h.2.2.2⟩

/-! ## Rotation-engine lemmas and claims C1, C2, C3 -/

theorem processShareChange_content_inv (share : Share) (oldPw : Option Bytes) (wasPP : Bool)
    (newPw saltC ivC saltF ivF : Bytes) (ud : UpdateData) (e : Bytes)
    (h : processShareChange share oldPw wasPP newPw saltC ivC saltF ivF = .success ud)
    (he : ud.content = some e) :
    ∃ dc, changeDecryptContent share oldPw wasPP = some (some dc) ∧ dc ≠ [] ∧
      encrypt dc (some newPw) true none saltC ivC = .ok e ∧
      verifyEncryption e dc = true := by
  unfold processShareChange at h
  rcases hdc : changeDecryptContent share oldPw wasPP with _ | dc
  · rw [hdc] at h
    cases h
  rw [hdc] at h
  simp only [] at h
  by_cases hskip : (!jsTruthy dc && !jsTruthy (changeDecryptFileName share oldPw wasPP)) = true
  · rw [if_pos hskip] at h
    cases h
  rw [if_neg hskip] at h
  by_cases htr : jsTruthy dc = true
  · rw [if_pos htr] at h
    rcases henc : encrypt (og dc) (some newPw) true none saltC ivC with u | e0
    · rw [henc] at h
      cases h
    rw [henc] at h
    by_cases hv : verifyEncryption e0 (og dc) = true
    · simp only [hv, Bool.not_true, Bool.false_eq_true, if_false] at h
      obtain ⟨dcv, hdceq, hdcne⟩ := (jsTruthy_iff dc).mp htr
      subst hdceq
      refine ⟨dcv, rfl, hdcne, ?_⟩
      rcases hsf : (if jsTruthy (changeDecryptFileName share oldPw wasPP) = true then
          match encrypt (og (changeDecryptFileName share oldPw wasPP)) (some newPw) true none saltF ivF with
          | .error _ => none
          | .ok e2 => if !verifyEncryption e2 (og (changeDecryptFileName share oldPw wasPP)) then some none else some (some e2)
        else some none) with _ | updF
      · rw [hsf] at h
        cases h
      · rw [hsf] at h
        cases h
        simp only [Option.some.injEq] at he
        subst he
        exact ⟨by simpa [og] using henc, by simpa [og] using hv⟩
    · rw [Bool.not_eq_true] at hv
      simp only [hv, Bool.not_false, if_true] at h
      cases h
  · rw [Bool.not_eq_true] at htr
    rw [htr] at h
    simp only [Bool.false_eq_true, if_false] at h
    rcases hsf : (if jsTruthy (changeDecryptFileName share oldPw wasPP) = true then
        match encrypt (og (changeDecryptFileName share oldPw wasPP)) (some newPw) true none saltF ivF with
        | .error _ => none
        | .ok e2 => if !verifyEncryption e2 (og (changeDecryptFileName share oldPw wasPP)) then some none else some (some e2)
      else some none) with _ | updF
    · rw [hsf] at h
      cases h
    · rw [hsf] at h
      cases h
      simp at he

theorem processShareChange_fileName_inv (share : Share) (oldPw : Option Bytes) (wasPP : Bool)
    (newPw saltC ivC saltF ivF : Bytes) (ud : UpdateData) (e : Bytes)
    (h : processShareChange share oldPw wasPP newPw saltC ivC saltF ivF = .success ud)
    (he : ud.file_name = some e) :
    ∃ df, changeDecryptFileName share oldPw wasPP = some df ∧ df ≠ [] ∧
      encrypt df (some newPw) true none saltF ivF = .ok e ∧
      verifyEncryption e df = true := by
  unfold processShareChange at h
  rcases hdc : changeDecryptContent share oldPw wasPP with _ | dc
  · rw [hdc] at h
    cases h
  rw [hdc] at h
  simp only [] at h
  by_cases hskip : (!jsTruthy dc && !jsTruthy (changeDecryptFileName share oldPw wasPP)) = true
  · rw [if_pos hskip] at h
    cases h
  rw [if_neg hskip] at h
  rcases hsc : (if jsTruthy dc = true then
      match encrypt (og dc) (some newPw) true none saltC ivC with
      | .error _ => none
      | .ok e1 => if !verifyEncryption e1 (og dc) then none else some (some e1)
    else some none) with _ | updC
  · rw [hsc] at h
    cases h
  rw [hsc] at h
  rcases hdf : changeDecryptFileName share oldPw wasPP with _ | df
  · rw [hdf] at h
    simp only [jsTruthy, Bool.false_eq_true, if_false] at h
    cases h
    simp at he
  rw [hdf] at h
  by_cases hft : jsTruthy (some df) = true
  · rw [if_pos hft] at h
    rcases hencF : encrypt (og (some df)) (some newPw) true none saltF ivF with u | e2
    · rw [hencF] at h
      cases h
    rw [hencF] at h
    by_cases hvf : verifyEncryption e2 (og (some df)) = true
    · simp only [hvf, Bool.not_true, Bool.false_eq_true, if_false] at h
      cases h
      simp only [Option.some.injEq] at he
      subst he
      obtain ⟨dfv, hdfeq, hdfne⟩ := (jsTruthy_iff (some df)).mp hft
      cases hdfeq
      exact ⟨df, rfl, hdfne, by simpa [og] using hencF, by simpa [og] using hvf⟩
    · rw [Bool.not_eq_true] at hvf
      simp only [hvf, Bool.not_false, if_true] at h
      cases h
      simp at he
  · rw [if_neg hft] at h
    cases h
    simp at he

/-- C3 (amended): in the password-removal branch, an item whose content field
is classified as ciphertext and fails to decrypt under the pre-rotation
password is aborted: the item is counted failed and nothing is written.  (The
password-change branch has no such abort — see the counterexample — and
file-name decryption failures never abort an item.) -/
theorem C3_removal_aborts_undecryptable_content (share : Share) (pw : Bytes)
    (hts : jsTruthy share.content = true)
    (henc : isEncrypted (og share.content) = true)
    (hfail : isEncrypted (decrypt (og share.content) (some pw) true) = true) :
    processShareRemoval share pw = .failed := by
  unfold processShareRemoval
  simp [hts, henc, hfail]

/-- C3 counterexample: in the password-change branch, a content field that is
classified as ciphertext and whose decryption under the pre-rotation password
fails (the envelope, sealed under "a", is attempted with old password "b" and
comes back unchanged, still ciphertext) does NOT abort the item: the engine
re-encrypts the undecrypted envelope and the item's update still writes the
content field. -/
theorem C3_counterexample :
    isEncrypted ((encrypt [104, 105] (some [97]) true none (List.replicate 16 7)
        (List.replicate 12 9)).toOption.getD []) = true ∧
    decrypt ((encrypt [104, 105] (some [97]) true none (List.replicate 16 7)
        (List.replicate 12 9)).toOption.getD []) (some [98]) true =
      (encrypt [104, 105] (some [97]) true none (List.replicate 16 7)
        (List.replicate 12 9)).toOption.getD [] ∧
    isEncrypted (decrypt ((encrypt [104, 105] (some [97]) true none (List.replicate 16 7)
        (List.replicate 12 9)).toOption.getD []) (some [98]) true) = true ∧
    (match processShareChange
        ⟨[116, 101, 120, 116],
         some ((encrypt [104, 105] (some [97]) true none (List.replicate 16 7)
                  (List.replicate 12 9)).toOption.getD []), none⟩
        (some [98]) true [110, 112] (List.replicate 16 1) (List.replicate 12 2)
        (List.replicate 16 3) (List.replicate 12 4) with
     | .success ud => ud.content.isSome
     | .failed => false) = true := by decide

/-- C3 witness: a concrete item whose envelope (sealed under "a") fails to
decrypt with the removal password "b" is aborted by the removal branch. -/
theorem C3_witness :
    processShareRemoval
      ⟨[116, 101, 120, 116],
       some ((encrypt [104, 105] (some [97]) true none (List.replicate 16 7)
                (List.replicate 12 9)).toOption.getD []), none⟩ [98] = .failed :=
  C3_removal_aborts_undecryptable_content _ _ (by decide) (by decide) (by decide)

/-- C2 (amended): when setting or changing the password, the engine persists a
re-encrypted field only when it is the fresh seal of that field's decrypted
value and the structural check `verifyEncryption` (difference from the
plaintext, classifier match, minimum lengths — no round-trip decryption)
accepts it. -/
theorem C2_structural_verification_gates_persistence (share : Share) (oldPw : Option Bytes)
    (wasPP : Bool) (newPw saltC ivC saltF ivF : Bytes) (ud : UpdateData)
    (h : processShareChange share oldPw wasPP newPw saltC ivC saltF ivF = .success ud) :
    (∀ e, ud.content = some e → ∃ dc, changeDecryptContent share oldPw wasPP = some (some dc) ∧
       dc ≠ [] ∧ encrypt dc (some newPw) true none saltC ivC = .ok e ∧
       verifyEncryption e dc = true) ∧
    (∀ e, ud.file_name = some e → ∃ df, changeDecryptFileName share oldPw wasPP = some df ∧
       df ≠ [] ∧ encrypt df (some newPw) true none saltF ivF = .ok e ∧
       verifyEncryption e df = true) :=
  ⟨fun e he => processShareChange_content_inv share oldPw wasPP newPw saltC ivC saltF ivF ud e h he,
   fun e he => processShareChange_fileName_inv share oldPw wasPP newPw saltC ivC saltF ivF ud e h he⟩

/-- C2 counterexample: the verification the engine runs (`verifyEncryption`)
is not a round-trip decryption check: it accepts the pair of an envelope and
the plaintext "xxxxx" although the envelope decrypts (under the very password
used to seal it) to "hello", not to "xxxxx". -/
theorem C2_counterexample :
    verifyEncryption ((encrypt [104, 101, 108, 108, 111] (some [112, 119]) true none
        (List.replicate 16 7) (List.replicate 12 9)).toOption.getD [])
      [120, 120, 120, 120, 120] = true ∧
    decrypt ((encrypt [104, 101, 108, 108, 111] (some [112, 119]) true none
        (List.replicate 16 7) (List.replicate 12 9)).toOption.getD [])
      (some [112, 119]) true = [104, 101, 108, 108, 111] ∧
    ([104, 101, 108, 108, 111] : Bytes) ≠ [120, 120, 120, 120, 120] := by decide

/-- C2 witness: a concrete successful change-branch run; the persisted
content field is the verified seal of the decrypted content. -/
theorem C2_witness :
    (∀ e, ((rotUpdate (processShareChange
        ⟨[116, 101, 120, 116],
         some ((encrypt [104, 101, 108, 108, 111] (some [112, 119]) true none
                  (List.replicate 16 7) (List.replicate 12 9)).toOption.getD []), none⟩
        (some [112, 119]) true [110, 112] (List.replicate 16 1) (List.replicate 12 2)
        (List.replicate 16 3) (List.replicate 12 4))).getD ⟨none, none⟩).content = some e →
      ∃ dc, changeDecryptContent
          ⟨[116, 101, 120, 116],
           some ((encrypt [104, 101, 108, 108, 111] (some [112, 119]) true none
                    (List.replicate 16 7) (List.replicate 12 9)).toOption.getD []), none⟩
          (some [112, 119]) true = some (some dc) ∧
        dc ≠ [] ∧ encrypt dc (some [110, 112]) true none (List.replicate 16 1) (List.replicate 12 2) = .ok e ∧
        verifyEncryption e dc = true) ∧
    (∀ e, ((rotUpdate (processShareChange
        ⟨[116, 101, 120, 116],
         some ((encrypt [104, 101, 108, 108, 111] (some [112, 119]) true none
                  (List.replicate 16 7) (List.replicate 12 9)).toOption.getD []), none⟩
        (some [112, 119]) true [110, 112] (List.replicate 16 1) (List.replicate 12 2)
        (List.replicate 16 3) (List.replicate 12 4))).getD ⟨none, none⟩).file_name = some e →
      ∃ df, changeDecryptFileName
          ⟨[116, 101, 120, 116],
           some ((encrypt [104, 101, 108, 108, 111] (some [112, 119]) true none
                    (List.replicate 16 7) (List.replicate 12 9)).toOption.getD []), none⟩
          (some [112, 119]) true = some df ∧
        df ≠ [] ∧ encrypt df (some [110, 112]) true none (List.replicate 16 3) (List.replicate 12 4) = .ok e ∧
        verifyEncryption e df = true) :=
  C2_structural_verification_gates_persistence
    ⟨[116, 101, 120, 116],
         some ((encrypt [104, 101, 108, 108, 111] (some [112, 119]) true none
                  (List.replicate 16 7) (List.replicate 12 9)).toOption.getD []), none⟩
    (some [112, 119]) true [110, 112] (List.replicate 16 1) (List.replicate 12 2)
    (List.replicate 16 3) (List.replicate 12 4)
    ((rotUpdate (processShareChange
        ⟨[116, 101, 120, 116],
         some ((encrypt [104, 101, 108, 108, 111] (some [112, 119]) true none
                  (List.replicate 16 7) (List.replicate 12 9)).toOption.getD []), none⟩
        (some [112, 119]) true [110, 112] (List.replicate 16 1) (List.replicate 12 2)
        (List.replicate 16 3) (List.replicate 12 4))).getD ⟨none, none⟩)
    (by decide)

/-- C1 (amended): when the room secret changes by setting or changing a
password, every field the engine persists passes the ciphertext classifier;
but when the password is removed, the engine persists the decrypted plaintext
value itself — the room-id / URL-fragment re-key applies only to content
created later, not to the rotation pass. -/
theorem C1_change_persists_ciphertext_removal_persists_plaintext
    (share : Share) (oldPw : Option Bytes) (wasPP : Bool)
    (newPw saltC ivC saltF ivF pw : Bytes) (ud : UpdateData)
    (hchange : processShareChange share oldPw wasPP newPw saltC ivC saltF ivF = .success ud) :
    (∀ e, ud.content = some e → isEncrypted e = true) ∧
    (∀ e, ud.file_name = some e → isEncrypted e = true) ∧
    (jsTruthy share.content = true →
     isEncrypted (og share.content) = true →
     isEncrypted (decrypt (og share.content) (some pw) true) = false →
     ∃ uf, processShareRemoval share pw =
       .success ⟨some (decrypt (og share.content) (some pw) true), uf⟩) := by
  refine ⟨?_, ?_, ?_⟩
  · intro e he
    obtain ⟨dc, _, _, _, hv⟩ :=
      processShareChange_content_inv share oldPw wasPP newPw saltC ivC saltF ivF ud e hchange he
    exact verifyEncryption_true_isEncrypted e dc hv
  · intro e he
    obtain ⟨df, _, _, _, hv⟩ :=
      processShareChange_fileName_inv share oldPw wasPP newPw saltC ivC saltF ivF ud e hchange he
    exact verifyEncryption_true_isEncrypted e df hv
  · intro hts henc hfail
    refine ⟨if share.stype = fileT && jsTruthy share.file_name &&
        isEncrypted (og share.file_name) then
        (if !isEncrypted (decrypt (og share.file_name) (some pw) true) then
           some (decrypt (og share.file_name) (some pw) true) else none)
      else none, ?_⟩
    unfold processShareRemoval
    simp [hts, henc, hfail]

/-- C1 witness: a concrete change-branch run persists only classifier-passing
fields, and the removal branch on the same item persists the decrypted
plaintext "hello". -/
theorem C1_witness :
    (∀ e, ((rotUpdate (processShareChange
        ⟨[116, 101, 120, 116],
         some ((encrypt [104, 101, 108, 108, 111] (some [112, 119]) true none
                  (List.replicate 16 7) (List.replicate 12 9)).toOption.getD []), none⟩
        (some [112, 119]) true [110, 112] (List.replicate 16 1) (List.replicate 12 2)
        (List.replicate 16 3) (List.replicate 12 4))).getD ⟨none, none⟩).content = some e →
      isEncrypted e = true) ∧
    (∀ e, ((rotUpdate (processShareChange
        ⟨[116, 101, 120, 116],
         some ((encrypt [104, 101, 108, 108, 111] (some [112, 119]) true none
                  (List.replicate 16 7) (List.replicate 12 9)).toOption.getD []), none⟩
        (some [112, 119]) true [110, 112] (List.replicate 16 1) (List.replicate 12 2)
        (List.replicate 16 3) (List.replicate 12 4))).getD ⟨none, none⟩).file_name = some e →
      isEncrypted e = true) ∧
    (∃ uf, processShareRemoval
        ⟨[116, 101, 120, 116],
         some ((encrypt [104, 101, 108, 108, 111] (some [112, 119]) true none
                  (List.replicate 16 7) (List.replicate 12 9)).toOption.getD []), none⟩
        [112, 119] =
      .success ⟨some (decrypt ((encrypt [104, 101, 108, 108, 111] (some [112, 119]) true none
                  (List.replicate 16 7) (List.replicate 12 9)).toOption.getD [])
                  (some [112, 119]) true), uf⟩) := by
  have h := C1_change_persists_ciphertext_removal_persists_plaintext
    ⟨[116, 101, 120, 116],
         some ((encrypt [104, 101, 108, 108, 111] (some [112, 119]) true none
                  (List.replicate 16 7) (List.replicate 12 9)).toOption.getD []), none⟩
    (some [112, 119]) true [110, 112] (List.replicate 16 1) (List.replicate 12 2)
    (List.replicate 16 3) (List.replicate 12 4) [112, 119]
    ((rotUpdate (processShareChange
        ⟨[116, 101, 120, 116],
         some ((encrypt [104, 101, 108, 108, 111] (some [112, 119]) true none
                  (List.replicate 16 7) (List.replicate 12 9)).toOption.getD []), none⟩
        (some [112, 119]) true [110, 112] (List.replicate 16 1) (List.replicate 12 2)
        (List.replicate 16 3) (List.replicate 12 4))).getD ⟨none, none⟩)
    (by decide)
  exact ⟨h.1, h.2.1, h.2.2 (by decide) (by decide) (by decide)⟩

/-- C1 counterexample: removing the password does not re-key the item to an
implicit secret: the removal branch persists the literal decrypted plaintext
"hello", which the ciphertext classifier rejects — a persisted item payload
that is not a ciphertext envelope. -/
theorem C1_counterexample :
    isEncrypted ((encrypt [104, 101, 108, 108, 111] (some [112, 119]) true none
        (List.replicate 16 7) (List.replicate 12 9)).toOption.getD []) = true ∧
    processShareRemoval
      ⟨[116, 101, 120, 116],
       some ((encrypt [104, 101, 108, 108, 111] (some [112, 119]) true none
                (List.replicate 16 7) (List.replicate 12 9)).toOption.getD []), none⟩
      [112, 119] = .success ⟨some [104, 101, 108, 108, 111], none⟩ ∧
    isEncrypted [104, 101, 108, 108, 111] = false := by decide

end Droply
